import Mathlib

/-! Double-Pendulum-Demo: the RK4 stepper and the two pendulum models.

A shallow embedding of `src/Solver.js`, `src/Pendulum.js` and
`src/DoublePendulum.js`, and theorems about it.

JavaScript numbers are modelled in exact arithmetic: `JsNum.fin x` is the finite
number `x` of an ordered field `α` (the reals in the theorems, the rationals
when a definition is evaluated), and `JsNum.nan` stands for every value that is
not a finite number: `NaN`, `±Infinity` and `undefined` read as a number.
Every operation of the code (`+ - * / %`, `Math.sin`, `Math.cos`) yields a
non-finite value as soon as one operand is non-finite, and a division or a
remainder by zero is non-finite.  Rounding and overflow are not modelled.

The one place where JavaScript returns a finite number from a non-finite operand,
a division or a remainder by `±Infinity`, needs an infinite `length`, `mass`
or `Math.PI`; the theorems are about objects whose fields are finite numbers, for
which the divisors of the program are finite.
-/

/-- A number of the program: a finite value, or a value that is not finite. -/
inductive JsNum (α : Type) where
  | fin : α → JsNum α
  | nan : JsNum α
  deriving DecidableEq, Repr

namespace JsNum

variable {α : Type}

/-- Sum of two numbers. -/
def add [Add α] : JsNum α → JsNum α → JsNum α
  | fin a, fin b => fin (a + b)
  | _, _ => nan

/-- Difference of two numbers. -/
def sub [Sub α] : JsNum α → JsNum α → JsNum α
  | fin a, fin b => fin (a - b)
  | _, _ => nan

/-- Product of two numbers. -/
def mul [Mul α] : JsNum α → JsNum α → JsNum α
  | fin a, fin b => fin (a * b)
  | _, _ => nan

/-- Unary minus. -/
def neg [Neg α] : JsNum α → JsNum α
  | fin a => fin (-a)
  | nan => nan

/-- Quotient of two numbers; dividing by zero leaves the finite numbers. -/
def div [Div α] [Zero α] [DecidableEq α] : JsNum α → JsNum α → JsNum α
  | fin a, fin b => if b = 0 then nan else fin (a / b)
  | _, _ => nan

/-- Rounding towards zero, as an integer. -/
def trunc [LinearOrderedField α] [FloorRing α] (q : α) : Int :=
  if 0 ≤ q then Int.floor q else Int.ceil q

/-- The remainder operator `%` on numbers: `a - b * trunc (a / b)`, which
has the sign of the dividend. -/
def mod [LinearOrderedField α] [FloorRing α] : JsNum α → JsNum α → JsNum α
  | fin a, fin b => if b = 0 then nan else fin (a - b * (trunc (a / b) : α))
  | _, _ => nan

instance [Add α] : Add (JsNum α) := ⟨add⟩
instance [Sub α] : Sub (JsNum α) := ⟨sub⟩
instance [Mul α] : Mul (JsNum α) := ⟨mul⟩
instance [Neg α] : Neg (JsNum α) := ⟨neg⟩
instance [Div α] [Zero α] [DecidableEq α] : Div (JsNum α) := ⟨div⟩
instance [LinearOrderedField α] [FloorRing α] : Mod (JsNum α) := ⟨mod⟩
instance {n : Nat} [OfNat α n] : OfNat (JsNum α) n := ⟨fin (OfNat.ofNat n)⟩

end JsNum

/-- Reading `xs[i]` as a number: past the end of the array the value is
`undefined`, which is not a finite number. -/
def idx {α : Type} (xs : List (JsNum α)) (i : Nat) : JsNum α :=
  xs.getD i JsNum.nan

/-- The function `rk4(changeFunction, state, dt)` of `src/Solver.js`. -/
def rk4 {α : Type} [LinearOrderedField α]
    (changeFunction : List (JsNum α) → List (JsNum α)) (state : List (JsNum α)) (dt : JsNum α) :
    List (JsNum α) :=
  let scalarMultiply := fun (x : JsNum α) => x * dt
  let k1 := (changeFunction state).map scalarMultiply
  let k2 := (changeFunction (state.mapIdx fun index e => e + idx k1 index / 2)).map scalarMultiply
  let k3 := (changeFunction (state.mapIdx fun index e => e + idx k2 index / 2)).map scalarMultiply
  let k4 := (changeFunction (state.mapIdx fun index e => e + idx k3 index)).map scalarMultiply
  state.mapIdx fun index e =>
    e + idx k1 index / 6 + idx k2 index / 3 + idx k3 index / 3 + idx k4 index / 6


/-! ## The `Math` object -/

/-- The part of JavaScript's `Math` the program uses, on finite numbers: the
sine, the cosine and the constant π. -/
structure JsMath (α : Type) where
  sinR : α → α
  cosR : α → α
  piR : α

namespace JsMath

variable {α : Type}

/-- The call `Math.sin(x)`. -/
def sin (Math : JsMath α) : JsNum α → JsNum α
  | JsNum.fin a => JsNum.fin (Math.sinR a)
  | JsNum.nan => JsNum.nan

/-- The call `Math.cos(x)`. -/
def cos (Math : JsMath α) : JsNum α → JsNum α
  | JsNum.fin a => JsNum.fin (Math.cosR a)
  | JsNum.nan => JsNum.nan

/-- The constant `Math.PI`. -/
def PI (Math : JsMath α) : JsNum α := JsNum.fin Math.piR

end JsMath

/-! ## `src/Pendulum.js` -/

/-- The fields of a `Pendulum` object. -/
structure Pendulum (α : Type) where
  angularVelocity : JsNum α
  length : JsNum α
  angle : JsNum α
  gravity : JsNum α

namespace Pendulum

variable {α : Type} [LinearOrderedField α] [FloorRing α]

/-- The constructor call `new Pendulum(length, angle, gravity)`. -/
def new (length angle gravity : JsNum α) : Pendulum α :=
  { angularVelocity := 0, length := length, angle := angle, gravity := gravity }

/-- The closure `changeFunction` built by `Pendulum.update`; the state is
`[angle, angular velocity]`. -/
def changeFunction (Math : JsMath α) (this : Pendulum α) (state : List (JsNum α)) :
    List (JsNum α) :=
  [ idx state 1,
    -Math.sin (idx state 0 - Math.PI / 2) * (this.gravity / this.length) ]

/-- The method `Pendulum.update(dt)`: the object after the call. -/
def update (Math : JsMath α) (this : Pendulum α) (dt : JsNum α) : Pendulum α :=
  let state := rk4 (changeFunction Math this) [this.angle, this.angularVelocity] dt
  { this with
    angle := idx state 0 % (2 * Math.PI)
    angularVelocity := idx state 1 }

end Pendulum

/-! ## `src/DoublePendulum.js` -/

/-- The fields of a `DoublePendulum` object. -/
structure DoublePendulum (α : Type) where
  angularVelocity1 : JsNum α
  angularVelocity2 : JsNum α
  length1 : JsNum α
  length2 : JsNum α
  mass1 : JsNum α
  mass2 : JsNum α
  angle1 : JsNum α
  angle2 : JsNum α
  gravity : JsNum α

namespace DoublePendulum

variable {α : Type} [LinearOrderedField α]

/-- The constructor call
`new DoublePendulum(length1, length2, angle1, angle2, mass1, mass2, gravity)`. -/
def new (length1 length2 angle1 angle2 mass1 mass2 gravity : JsNum α) : DoublePendulum α :=
  { angularVelocity1 := 0, angularVelocity2 := 0, length1 := length1, length2 := length2,
    mass1 := mass1, mass2 := mass2, angle1 := angle1, angle2 := angle2, gravity := gravity }

/-- The local `denom` of `DoublePendulum.update`: it is computed once, from the
fields of the object, before the closure is built. -/
def denom (Math : JsMath α) (this : DoublePendulum α) : JsNum α :=
  2 * this.mass1 + this.mass2 - this.mass2 * Math.cos (2 * (this.angle1 - this.angle2))

/-- The closure `changeFunction` built by `DoublePendulum.update`; the state is
`[angle1, angle2, angular velocity 1, angular velocity 2]`, and `denom` is the
captured local. -/
def changeFunction (Math : JsMath α) (this : DoublePendulum α) (state : List (JsNum α)) :
    List (JsNum α) :=
  [ idx state 2,
    idx state 3,
    (-this.gravity * (2 * this.mass1 + this.mass2) * Math.sin (idx state 0)
        - this.mass2 * this.gravity * Math.sin (idx state 0 - 2 * idx state 1)
        - 2 * Math.sin (idx state 0 - idx state 1) * this.mass2
        * (idx state 2 * idx state 2 * this.length2
            + idx state 3 * idx state 3 * this.length1 * Math.cos (idx state 0 - idx state 1)))
        / (this.length1 * denom Math this),
    2 * Math.sin (idx state 0 - idx state 1) *
        (idx state 2 * idx state 2 * this.length1 * (this.mass1 + this.mass2)
        + this.gravity * (this.mass1 + this.mass2) * Math.cos (idx state 0)
        + idx state 3 * idx state 3 * this.length2 * this.mass2
            * Math.cos (idx state 0 - idx state 1))
        / (this.length2 * denom Math this) ]

/-- The method `DoublePendulum.update(dt)`: the object after the call. -/
def update (Math : JsMath α) (this : DoublePendulum α) (dt : JsNum α) : DoublePendulum α :=
  let state := rk4 (changeFunction Math this)
    [this.angle1, this.angle2, this.angularVelocity1, this.angularVelocity2] dt
  { this with
    angle1 := idx state 0
    angle2 := idx state 1
    angularVelocity1 := idx state 2
    angularVelocity2 := idx state 3 }

end DoublePendulum

/-! ## The specification's formulas -/

/-- The array of finite numbers whose components are those of `v`. -/
def enc {α : Type} {n : Nat} (v : Fin n → α) : List (JsNum α) :=
  List.ofFn fun i => JsNum.fin (v i)


/-- The RK4 step on real vectors, in the words of the specification:
`k1 = f(s)·dt`, `k2 = f(s + k1/2)·dt`, `k3 = f(s + k2/2)·dt`,
`k4 = f(s + k3)·dt`, result `s + k1/6 + k2/3 + k3/3 + k4/6`. -/
def rk4Spec {α : Type} [Field α] {n : Nat} (g : (Fin n → α) → (Fin n → α))
    (s : Fin n → α) (dt : α) : Fin n → α :=
  let k1 : Fin n → α := fun i => g s i * dt
  let k2 : Fin n → α := fun i => g (fun j => s j + k1 j / 2) i * dt
  let k3 : Fin n → α := fun i => g (fun j => s j + k2 j / 2) i * dt
  let k4 : Fin n → α := fun i => g (fun j => s j + k3 j) i * dt
  fun i => s i + k1 i / 6 + k2 i / 3 + k3 i / 3 + k4 i / 6


/-- The derivative function of the single pendulum on real vectors, in the
words of section 4.2: `θ' = ω`, `ω' = −sin(θ − π/2) · (gravity / length)`. -/
def pendulumRate {α : Type} [Field α] (sin : α → α) (pi gravity length : α)
    (x : Fin 2 → α) : Fin 2 → α :=
  ![x 1, -sin (x 0 - pi / 2) * (gravity / length)]

/-- The four values the closure of `DoublePendulum.update` computes from a
state `[θ1, θ2, ω1, ω2]` of finite numbers, for a given value `d` of the
captured `denom`. -/
def doubleRate {α : Type} [Field α] (sin cos : α → α) (m1 m2 l1 l2 g d : α)
    (x : Fin 4 → α) : Fin 4 → α :=
  ![x 2,
    x 3,
    (-g * (2 * m1 + m2) * sin (x 0) - m2 * g * sin (x 0 - 2 * x 1)
      - 2 * sin (x 0 - x 1) * m2 * (x 2 * x 2 * l2 + x 3 * x 3 * l1 * cos (x 0 - x 1)))
      / (l1 * d),
    2 * sin (x 0 - x 1) * (x 2 * x 2 * l1 * (m1 + m2) + g * (m1 + m2) * cos (x 0)
      + x 3 * x 3 * l2 * m2 * cos (x 0 - x 1)) / (l2 * d)]

/-- The denominator of section 4.3 at the angles `θ1`, `θ2`:
`2·m1 + m2 − m2·cos(2·(θ1 − θ2))`. -/
def denomAt {α : Type} [Field α] (cos : α → α) (m1 m2 θ1 θ2 : α) : α :=
  2 * m1 + m2 - m2 * cos (2 * (θ1 - θ2))

/-- The derivative function of the double pendulum in the words of section
4.3: the state is `[θ1, θ2, ω1, ω2]` and `denom` is taken at the `θ1`, `θ2` of
that state. -/
def doubleRateSpec {α : Type} [Field α] (sin cos : α → α) (m1 m2 l1 l2 g : α)
    (x : Fin 4 → α) : Fin 4 → α :=
  let θ1 := x 0
  let θ2 := x 1
  let ω1 := x 2
  let ω2 := x 3
  let denom := 2 * m1 + m2 - m2 * cos (2 * (θ1 - θ2))
  ![ω1,
    ω2,
    (-g * (2 * m1 + m2) * sin θ1 - m2 * g * sin (θ1 - 2 * θ2)
      - 2 * sin (θ1 - θ2) * m2 * (ω1 ^ 2 * l2 + ω2 ^ 2 * l1 * cos (θ1 - θ2))) / (l1 * denom),
    (2 * sin (θ1 - θ2) * (ω1 ^ 2 * l1 * (m1 + m2) + g * (m1 + m2) * cos θ1
      + ω2 ^ 2 * l2 * m2 * cos (θ1 - θ2))) / (l2 * denom)]

/-- Left-hand side of the first Euler-Lagrange equation of the planar double
pendulum, angles measured from the downward vertical. -/
def eulerLagrange1 {α : Type} [Field α] (sin cos : α → α) (m1 m2 l1 l2 g : α)
    (θ1 θ2 ω2 a1 a2 : α) : α :=
  (m1 + m2) * l1 * a1 + m2 * l2 * a2 * cos (θ1 - θ2) + m2 * l2 * ω2 ^ 2 * sin (θ1 - θ2)
    + (m1 + m2) * g * sin θ1

/-- Left-hand side of the second Euler-Lagrange equation of the planar double
pendulum, angles measured from the downward vertical. -/
def eulerLagrange2 {α : Type} [Field α] (sin cos : α → α) (l1 l2 g : α)
    (θ1 θ2 ω1 a1 a2 : α) : α :=
  l2 * a2 + l1 * a1 * cos (θ1 - θ2) - l1 * ω1 ^ 2 * sin (θ1 - θ2) + g * sin θ2

/-- The mechanical energy of the single pendulum as section 8 writes it:
`½·ω²·length² − gravity·length·cos(angle)`. -/
def energySpec {α : Type} [Field α] (cos : α → α) (length gravity θ ω : α) : α :=
  1 / 2 * ω ^ 2 * length ^ 2 - gravity * length * cos θ

/-- The rate of change of `energySpec` along a derivative `[dθ, dω]` of the state
`[θ, ω]`: `length²·ω·ω' + gravity·length·sin(θ)·θ'`. -/
def energySpecRate {α : Type} [Field α] (sin : α → α) (length gravity θ ω dθ dω : α) : α :=
  length ^ 2 * ω * dω + gravity * length * sin θ * dθ

/-- The mechanical energy of the single pendulum for an angle measured from the
horizontal axis of the canvas, whose `y` axis points down: the bob is
`length·sin(angle)` below the pin, so the energy is
`½·ω²·length² − gravity·length·sin(angle)`. -/
def energyCanvas {α : Type} [Field α] (sin : α → α) (length gravity θ ω : α) : α :=
  1 / 2 * ω ^ 2 * length ^ 2 - gravity * length * sin θ

/-- The rate of change of `energyCanvas` along a derivative `[dθ, dω]` of the state
`[θ, ω]`: `length²·ω·ω' − gravity·length·cos(θ)·θ'`. -/
def energyCanvasRate {α : Type} [Field α] (cos : α → α) (length gravity θ ω dθ dω : α) : α :=
  length ^ 2 * ω * dω - gravity * length * cos θ * dθ

/-! ## `src/Main.js` -/

/-- The locals `x` and `y` of `DrawingApp.draw`: the position of the bob on a canvas of
the given width and height. -/
def DrawingApp.bob {α : Type} [LinearOrderedField α] (Math : JsMath α)
    (width height : JsNum α) (pendulum : Pendulum α) : JsNum α × JsNum α :=
  (width / 2 + pendulum.length * Math.cos pendulum.angle,
    height / 2 + pendulum.length * Math.sin pendulum.angle)

/-! ## Arrays as objects

The functions above take and return the contents of arrays.  To speak of an array
being modified, arrays are objects of a store: an array object is its position in
the list of the arrays allocated so far. -/

/-- The arrays allocated so far. -/
structure Store (α : Type) where
  arrays : List (List (JsNum α))

namespace Store

variable {α : Type}

/-- The contents of the array object `p`. -/
def read (h : Store α) (p : Nat) : List (JsNum α) :=
  h.arrays.getD p []

/-- A new array object with the contents `xs`. -/
def alloc (h : Store α) (xs : List (JsNum α)) : Nat × Store α :=
  (h.arrays.length, ⟨h.arrays ++ [xs]⟩)

/-- The call `a.map(callback)`: the callback receives the element and its index, and
the results go to a new array object; `a` is only read. -/
def map (h : Store α) (a : Nat) (callback : JsNum α → Nat → JsNum α) : Nat × Store α :=
  h.alloc ((h.read a).mapIdx fun index e => callback e index)

end Store

/-- The function `rk4(changeFunction, state, dt)` of `src/Solver.js` on array objects.
`changeFunction` is a pure function: it reads the array it is given and returns a new
array.  The value is the returned array object and the store after the call. -/
def rk4Store {α : Type} [LinearOrderedField α]
    (changeFunction : List (JsNum α) → List (JsNum α)) (state : Nat) (dt : JsNum α)
    (h0 : Store α) : Nat × Store α :=
  let scalarMultiply := fun (x : JsNum α) (_ : Nat) => x * dt
  let c1 := h0.alloc (changeFunction (h0.read state))
  let k1 := c1.2.map c1.1 scalarMultiply
  let s2 := k1.2.map state fun e index => e + idx (k1.2.read k1.1) index / 2
  let c2 := s2.2.alloc (changeFunction (s2.2.read s2.1))
  let k2 := c2.2.map c2.1 scalarMultiply
  let s3 := k2.2.map state fun e index => e + idx (k2.2.read k2.1) index / 2
  let c3 := s3.2.alloc (changeFunction (s3.2.read s3.1))
  let k3 := c3.2.map c3.1 scalarMultiply
  let s4 := k3.2.map state fun e index => e + idx (k3.2.read k3.1) index
  let c4 := s4.2.alloc (changeFunction (s4.2.read s4.1))
  let k4 := c4.2.map c4.1 scalarMultiply
  k4.2.map state fun e index =>
    e + idx (k4.2.read k1.1) index / 6 + idx (k4.2.read k2.1) index / 3
      + idx (k4.2.read k3.1) index / 3 + idx (k4.2.read k4.1) index / 6

/-! ## Arithmetic on finite numbers -/

namespace JsNum

variable {α : Type}

@[simp] theorem fin_add_fin [Add α] (a b : α) : fin a + fin b = fin (a + b) := rfl

@[simp] theorem fin_sub_fin [Sub α] (a b : α) : fin a - fin b = fin (a - b) := rfl

@[simp] theorem fin_mul_fin [Mul α] (a b : α) : fin a * fin b = fin (a * b) := rfl

@[simp] theorem neg_fin [Neg α] (a : α) : -fin a = fin (-a) := rfl

theorem fin_div_fin [Div α] [Zero α] [DecidableEq α] (a b : α) :
    fin a / fin b = if b = 0 then nan else fin (a / b) := rfl

@[simp] theorem fin_div_fin_of_ne [Div α] [Zero α] [DecidableEq α] (a : α) {b : α}
    (hb : b ≠ 0) : fin a / fin b = fin (a / b) := by
  rw [fin_div_fin, if_neg hb]

theorem fin_mod_fin [LinearOrderedField α] [FloorRing α] (a b : α) :
    fin a % fin b = if b = 0 then nan else fin (a - b * (trunc (a / b) : α)) := rfl

@[simp] theorem fin_mod_fin_of_ne [LinearOrderedField α] [FloorRing α] (a : α) {b : α}
    (hb : b ≠ 0) : fin a % fin b = fin (a - b * (trunc (a / b) : α)) := by
  rw [fin_mod_fin, if_neg hb]

@[simp] theorem ofNat_eq_fin {n : Nat} [OfNat α n] :
    (OfNat.ofNat n : JsNum α) = fin (OfNat.ofNat n) := rfl

end JsNum

/-! ## Arrays of finite numbers -/

section Arrays

variable {α : Type} {n : Nat}

theorem length_enc (v : Fin n → α) : (enc v).length = n := by
  simp [enc]

theorem idx_enc (v : Fin n → α) (i : Fin n) : idx (enc v) i = JsNum.fin (v i) := by
  have h : (i : Nat) < (List.ofFn fun j => JsNum.fin (v j)).length := by simp
  simp [idx, enc, List.getD_eq_getElem _ _ h]

theorem map_enc (v : Fin n → α) (F : JsNum α → JsNum α) (G : Fin n → α)
    (h : ∀ i, F (JsNum.fin (v i)) = JsNum.fin (G i)) : (enc v).map F = enc G := by
  apply List.ext_getElem
  · simp [enc]
  · intro i h1 h2
    have hi : i < n := by simpa [enc] using h1
    simpa [enc] using h ⟨i, hi⟩

theorem mapIdx_enc (v : Fin n → α) (F : Nat → JsNum α → JsNum α) (G : Fin n → α)
    (h : ∀ i : Fin n, F i (JsNum.fin (v i)) = JsNum.fin (G i)) :
    (enc v).mapIdx F = enc G := by
  apply List.ext_getElem
  · simp [enc]
  · intro i h1 h2
    have hi : i < n := by simpa [enc] using h1
    simpa [enc] using h ⟨i, hi⟩

theorem enc_two (x : Fin 2 → α) : enc x = [JsNum.fin (x 0), JsNum.fin (x 1)] := by
  simp [enc, List.ofFn_succ]

theorem enc_four (x : Fin 4 → α) :
    enc x = [JsNum.fin (x 0), JsNum.fin (x 1), JsNum.fin (x 2), JsNum.fin (x 3)] := by
  simp [enc, List.ofFn_succ]
  rfl

end Arrays

/-! ## The stepper -/

theorem rk4_enc {α : Type} [LinearOrderedField α] {n : Nat}
    (f : List (JsNum α) → List (JsNum α)) (g : (Fin n → α) → (Fin n → α))
    (hf : ∀ x : Fin n → α, f (enc x) = enc (g x)) (s : Fin n → α) (dt : α) :
    rk4 f (enc s) (JsNum.fin dt) = enc (rk4Spec g s dt) := by
  have h2 : (2 : α) ≠ 0 := two_ne_zero
  have h3 : (3 : α) ≠ 0 := three_ne_zero
  have h6 : (6 : α) ≠ 0 := by norm_num
  have hk : ∀ x : Fin n → α,
      (f (enc x)).map (fun y => y * JsNum.fin dt) = enc (fun i => g x i * dt) := by
    intro x
    rw [hf x]
    exact map_enc _ _ _ (fun i => by simp)
  have hhalf : ∀ k : Fin n → α,
      (enc s).mapIdx (fun index e => e + idx (enc k) index / 2) =
        enc (fun j => s j + k j / 2) := by
    intro k
    exact mapIdx_enc s _ _ (fun i => by simp [idx_enc, h2])
  have hfull : ∀ k : Fin n → α,
      (enc s).mapIdx (fun index e => e + idx (enc k) index) = enc (fun j => s j + k j) := by
    intro k
    exact mapIdx_enc s _ _ (fun i => by simp [idx_enc])
  unfold rk4
  simp only []
  rw [hk s, hhalf, hk, hhalf, hk, hfull, hk]
  exact mapIdx_enc s _ _ (fun i => by simp [idx_enc, h2, h3, h6, rk4Spec])

/-! ## The closures on arrays of finite numbers -/

section Closures

variable {α : Type} [LinearOrderedField α]

theorem pendulum_changeFunction_enc [FloorRing α] (Math : JsMath α) (ω θ : JsNum α)
    (l g : α) (hl : l ≠ 0) (x : Fin 2 → α) :
    Pendulum.changeFunction Math ⟨ω, JsNum.fin l, θ, JsNum.fin g⟩ (enc x) =
      enc (pendulumRate Math.sinR Math.piR g l x) := by
  have h2 : (2 : α) ≠ 0 := two_ne_zero
  simp [Pendulum.changeFunction, enc_two, idx, JsMath.sin, JsMath.PI, pendulumRate, hl, h2]

theorem double_changeFunction_enc (Math : JsMath α) (ω1 ω2 : JsNum α)
    (l1 l2 m1 m2 θ1 θ2 g : α)
    (h1 : l1 * denomAt Math.cosR m1 m2 θ1 θ2 ≠ 0) (h2 : l2 * denomAt Math.cosR m1 m2 θ1 θ2 ≠ 0)
    (x : Fin 4 → α) :
    DoublePendulum.changeFunction Math
        ⟨ω1, ω2, JsNum.fin l1, JsNum.fin l2, JsNum.fin m1, JsNum.fin m2, JsNum.fin θ1,
          JsNum.fin θ2, JsNum.fin g⟩ (enc x) =
      enc (doubleRate Math.sinR Math.cosR m1 m2 l1 l2 g (denomAt Math.cosR m1 m2 θ1 θ2) x) := by
  unfold denomAt at h1 h2
  simp [DoublePendulum.changeFunction, DoublePendulum.denom, enc_four, idx, JsMath.sin,
    JsMath.cos, doubleRate, denomAt, h1, h2]

end Closures

/-! ## The remainder operator -/

section Remainder

variable {α : Type} [LinearOrderedField α] [FloorRing α]

theorem JsNum.trunc_of_nonneg {q : α} (hq : 0 ≤ q) : JsNum.trunc q = Int.floor q := by
  simp [JsNum.trunc, hq]

theorem JsNum.trunc_of_neg {q : α} (hq : q < 0) : JsNum.trunc q = Int.ceil q := by
  simp [JsNum.trunc, not_le.mpr hq]

theorem JsNum.rem_of_nonneg {a b : α} (hb : 0 < b) (ha : 0 ≤ a) :
    0 ≤ a - b * (JsNum.trunc (a / b) : α) ∧ a - b * (JsNum.trunc (a / b) : α) < b := by
  have hq : 0 ≤ a / b := div_nonneg ha hb.le
  rw [JsNum.trunc_of_nonneg hq]
  have h1 : ((Int.floor (a / b) : Int) : α) ≤ a / b := Int.floor_le _
  have h2 : a / b < ((Int.floor (a / b) : Int) : α) + 1 := Int.lt_floor_add_one _
  have e : b * (a / b) = a := mul_div_cancel₀ a hb.ne'
  have h3 := mul_le_mul_of_nonneg_left h1 hb.le
  have h4 := mul_lt_mul_of_pos_left h2 hb
  rw [e] at h3 h4
  constructor <;> linarith

theorem JsNum.rem_of_neg {a b : α} (hb : 0 < b) (ha : a < 0) :
    -b < a - b * (JsNum.trunc (a / b) : α) ∧ a - b * (JsNum.trunc (a / b) : α) ≤ 0 := by
  have hq : a / b < 0 := div_neg_of_neg_of_pos ha hb
  rw [JsNum.trunc_of_neg hq]
  have h1 : a / b ≤ ((Int.ceil (a / b) : Int) : α) := Int.le_ceil _
  have h2 : ((Int.ceil (a / b) : Int) : α) < a / b + 1 := Int.ceil_lt_add_one _
  have e : b * (a / b) = a := mul_div_cancel₀ a hb.ne'
  have h3 := mul_le_mul_of_nonneg_left h1 hb.le
  have h4 := mul_lt_mul_of_pos_left h2 hb
  rw [e] at h3
  rw [mul_add, e, mul_one] at h4
  constructor <;> linarith

theorem JsNum.trunc_eq_zero {a b : α} (hb : 0 < b) (h1 : -b < a) (h2 : a < b) :
    JsNum.trunc (a / b) = 0 := by
  rcases le_or_lt 0 a with ha | ha
  · rw [JsNum.trunc_of_nonneg (div_nonneg ha hb.le), Int.floor_eq_iff]
    constructor
    · simpa using div_nonneg ha hb.le
    · simpa using (div_lt_one hb).mpr h2
  · rw [JsNum.trunc_of_neg (div_neg_of_neg_of_pos ha hb), Int.ceil_eq_iff]
    constructor
    · have : -1 < a / b := by
        rw [lt_div_iff₀ hb]
        linarith
      simpa using this
    · simpa using (div_neg_of_neg_of_pos ha hb).le

end Remainder

/-! ## One step of each model on finite numbers -/

section Steps

variable {α : Type} [LinearOrderedField α]

theorem rk4Spec_zero {n : Nat} (g : (Fin n → α) → (Fin n → α)) (s : Fin n → α) :
    rk4Spec g s 0 = s := by
  funext i
  simp [rk4Spec]

theorem rk4Spec_fixed {n : Nat} (g : (Fin n → α) → (Fin n → α)) (s : Fin n → α) (dt : α)
    (hg : g s = 0) : rk4Spec g s dt = s := by
  have e1 : (fun j => s j + g s j * dt / 2) = s := by
    funext j
    simp [hg]
  have e2 : (fun j => s j + g s j * dt) = s := by
    funext j
    simp [hg]
  funext i
  simp only [rk4Spec]
  rw [e1, e1, e2]
  simp [hg]

theorem rk4_enc_zero {n : Nat} (f : List (JsNum α) → List (JsNum α)) (s y : Fin n → α)
    (hf : f (enc s) = enc y) : rk4 f (enc s) (JsNum.fin 0) = enc s := by
  have h2 : (2 : α) ≠ 0 := two_ne_zero
  have h3 : (3 : α) ≠ 0 := three_ne_zero
  have h6 : (6 : α) ≠ 0 := by norm_num
  have hk : (f (enc s)).map (fun x => x * JsNum.fin 0) = enc (fun _ : Fin n => (0 : α)) := by
    rw [hf]
    exact map_enc _ _ _ (fun i => by simp)
  have hhalf : (enc s).mapIdx
      (fun index e => e + idx (enc (fun _ : Fin n => (0 : α))) index / 2) = enc s :=
    mapIdx_enc s _ _ (fun i => by simp [idx_enc, h2])
  have hfull : (enc s).mapIdx
      (fun index e => e + idx (enc (fun _ : Fin n => (0 : α))) index) = enc s :=
    mapIdx_enc s _ _ (fun i => by simp [idx_enc])
  unfold rk4
  simp only []
  rw [hk, hhalf, hk, hhalf, hk, hfull, hk]
  exact mapIdx_enc s _ _ (fun i => by simp [idx_enc, h2, h3, h6])

theorem pendulum_rk4_fin [FloorRing α] (Math : JsMath α) (ω0 θ0 : JsNum α)
    (l θ ω g dt : α) (hl : l ≠ 0) :
    rk4 (Pendulum.changeFunction Math ⟨ω0, JsNum.fin l, θ0, JsNum.fin g⟩)
        [JsNum.fin θ, JsNum.fin ω] (JsNum.fin dt) =
      [JsNum.fin (rk4Spec (pendulumRate Math.sinR Math.piR g l) ![θ, ω] dt 0),
        JsNum.fin (rk4Spec (pendulumRate Math.sinR Math.piR g l) ![θ, ω] dt 1)] := by
  have hs : [JsNum.fin θ, JsNum.fin ω] = enc ![θ, ω] := by simp [enc_two]
  rw [hs, rk4_enc _ _ (pendulum_changeFunction_enc Math _ _ l g hl), enc_two]

theorem pendulum_update_fin [FloorRing α] (Math : JsMath α) (l θ ω g dt : α) (hl : l ≠ 0)
    (hpi : Math.piR ≠ 0) :
    Pendulum.update Math ⟨JsNum.fin ω, JsNum.fin l, JsNum.fin θ, JsNum.fin g⟩ (JsNum.fin dt) =
      ⟨JsNum.fin (rk4Spec (pendulumRate Math.sinR Math.piR g l) ![θ, ω] dt 1),
        JsNum.fin l,
        JsNum.fin (rk4Spec (pendulumRate Math.sinR Math.piR g l) ![θ, ω] dt 0
          - 2 * Math.piR * (JsNum.trunc
              (rk4Spec (pendulumRate Math.sinR Math.piR g l) ![θ, ω] dt 0 / (2 * Math.piR)) : α)),
        JsNum.fin g⟩ := by
  have hs : [JsNum.fin θ, JsNum.fin ω] = enc ![θ, ω] := by simp [enc_two]
  have h2pi : 2 * Math.piR ≠ 0 := mul_ne_zero two_ne_zero hpi
  unfold Pendulum.update
  simp only []
  rw [hs, rk4_enc _ _ (pendulum_changeFunction_enc Math _ _ l g hl)]
  simp [enc_two, idx, JsMath.PI, h2pi]

theorem double_update_fin (Math : JsMath α) (l1 l2 m1 m2 θ1 θ2 ω1 ω2 g dt : α)
    (h1 : l1 * denomAt Math.cosR m1 m2 θ1 θ2 ≠ 0)
    (h2 : l2 * denomAt Math.cosR m1 m2 θ1 θ2 ≠ 0) :
    DoublePendulum.update Math
        ⟨JsNum.fin ω1, JsNum.fin ω2, JsNum.fin l1, JsNum.fin l2, JsNum.fin m1, JsNum.fin m2,
          JsNum.fin θ1, JsNum.fin θ2, JsNum.fin g⟩ (JsNum.fin dt) =
      ⟨JsNum.fin (rk4Spec (doubleRate Math.sinR Math.cosR m1 m2 l1 l2 g
            (denomAt Math.cosR m1 m2 θ1 θ2)) ![θ1, θ2, ω1, ω2] dt 2),
        JsNum.fin (rk4Spec (doubleRate Math.sinR Math.cosR m1 m2 l1 l2 g
            (denomAt Math.cosR m1 m2 θ1 θ2)) ![θ1, θ2, ω1, ω2] dt 3),
        JsNum.fin l1, JsNum.fin l2, JsNum.fin m1, JsNum.fin m2,
        JsNum.fin (rk4Spec (doubleRate Math.sinR Math.cosR m1 m2 l1 l2 g
            (denomAt Math.cosR m1 m2 θ1 θ2)) ![θ1, θ2, ω1, ω2] dt 0),
        JsNum.fin (rk4Spec (doubleRate Math.sinR Math.cosR m1 m2 l1 l2 g
            (denomAt Math.cosR m1 m2 θ1 θ2)) ![θ1, θ2, ω1, ω2] dt 1),
        JsNum.fin g⟩ := by
  have hs : [JsNum.fin θ1, JsNum.fin θ2, JsNum.fin ω1, JsNum.fin ω2] = enc ![θ1, θ2, ω1, ω2] := by
    simp [enc_four]
  unfold DoublePendulum.update
  simp only []
  rw [hs, rk4_enc _ _ (double_changeFunction_enc Math _ _ l1 l2 m1 m2 θ1 θ2 g h1 h2)]
  simp [enc_four, idx]

end Steps

/-! ## Linear systems and the exponential -/

theorem rk4Spec_linear {n : Nat} (g : (Fin n → ℝ) →ₗ[ℝ] (Fin n → ℝ)) (s : Fin n → ℝ) (dt : ℝ) :
    rk4Spec g s dt =
      s + dt • g s + (dt ^ 2 / 2) • g (g s) + (dt ^ 3 / 6) • g (g (g s))
        + (dt ^ 4 / 24) • g (g (g (g s))) := by
  have e1 : (fun j => s j + g s j * dt / 2) = s + (dt / 2) • g s := by
    funext j
    simp
    ring
  have e2 : (fun j => s j + g (s + (dt / 2) • g s) j * dt / 2)
      = s + (dt / 2) • g s + (dt ^ 2 / 4) • g (g s) := by
    funext j
    simp [map_add, map_smul]
    ring
  have e3 : (fun j => s j + g (s + (dt / 2) • g s + (dt ^ 2 / 4) • g (g s)) j * dt)
      = s + dt • g s + (dt ^ 2 / 2) • g (g s) + (dt ^ 3 / 4) • g (g (g s)) := by
    funext j
    simp [map_add, map_smul]
    ring
  funext i
  simp only [rk4Spec]
  rw [e1, e2, e3]
  simp [map_add, map_smul]
  ring

theorem rk4_scalar_identity (x0 dt : ℝ) :
    rk4 (fun x => x) [JsNum.fin x0] (JsNum.fin dt) =
      [JsNum.fin (x0 * (1 + dt + dt ^ 2 / 2 + dt ^ 3 / 6 + dt ^ 4 / 24))] := by
  have h2 : (2 : ℝ) ≠ 0 := two_ne_zero
  have h3 : (3 : ℝ) ≠ 0 := three_ne_zero
  have h6 : (6 : ℝ) ≠ 0 := by norm_num
  simp [rk4, idx, h2, h3, h6]
  ring

theorem exp_sub_taylor4_le (x : ℝ) :
    |Real.exp x - (1 + x + x ^ 2 / 2 + x ^ 3 / 6 + x ^ 4 / 24)|
      ≤ |x| ^ 5 * Real.exp |x| / 120 := by
  have hs : HasSum (fun n : ℕ => x ^ n / (n.factorial : ℝ)) (Real.exp x) := by
    rw [Real.exp_eq_exp_ℝ]
    exact NormedSpace.expSeries_div_hasSum_exp ℝ x
  have hsa : HasSum (fun n : ℕ => |x| ^ n / (n.factorial : ℝ)) (Real.exp |x|) := by
    rw [Real.exp_eq_exp_ℝ]
    exact NormedSpace.expSeries_div_hasSum_exp ℝ |x|
  have hsplit := sum_add_tsum_nat_add 5 hs.summable
  rw [hs.tsum_eq] at hsplit
  have hhead : ∑ i in Finset.range 5, x ^ i / (i.factorial : ℝ)
      = 1 + x + x ^ 2 / 2 + x ^ 3 / 6 + x ^ 4 / 24 := by
    simp [Finset.sum_range_succ, Nat.factorial]
  have htail : Real.exp x - (1 + x + x ^ 2 / 2 + x ^ 3 / 6 + x ^ 4 / 24)
      = tsum (fun i : ℕ => x ^ (i + 5) / ((i + 5).factorial : ℝ)) := by
    rw [← hhead]
    linarith
  have hsum : Summable (fun i : ℕ => x ^ (i + 5) / ((i + 5).factorial : ℝ)) :=
    (summable_nat_add_iff 5).mpr hs.summable
  have hbound : ∀ i : ℕ, ‖x ^ (i + 5) / ((i + 5).factorial : ℝ)‖
      ≤ |x| ^ 5 / 120 * (|x| ^ i / (i.factorial : ℝ)) := by
    intro i
    have hfac : (120 : ℝ) * (i.factorial : ℝ) ≤ ((i + 5).factorial : ℝ) := by
      have hdvd := Nat.factorial_mul_factorial_dvd_factorial_add 5 i
      have hle := Nat.le_of_dvd (Nat.factorial_pos _) hdvd
      have h5 : Nat.factorial 5 = 120 := by decide
      rw [h5, add_comm 5 i] at hle
      exact_mod_cast hle
    have hipos : (0 : ℝ) < (i.factorial : ℝ) := by exact_mod_cast Nat.factorial_pos i
    have hpos : (0 : ℝ) < 120 * (i.factorial : ℝ) := by positivity
    rw [Real.norm_eq_abs, abs_div, abs_pow, Nat.abs_cast]
    calc |x| ^ (i + 5) / ((i + 5).factorial : ℝ)
        ≤ |x| ^ (i + 5) / (120 * (i.factorial : ℝ)) :=
          div_le_div_of_nonneg_left (by positivity) hpos hfac
      _ = |x| ^ 5 / 120 * (|x| ^ i / (i.factorial : ℝ)) := by
          rw [pow_add]
          field_simp
          ring
  rw [htail]
  calc |tsum (fun i : ℕ => x ^ (i + 5) / ((i + 5).factorial : ℝ))|
      = ‖tsum (fun i : ℕ => x ^ (i + 5) / ((i + 5).factorial : ℝ))‖ :=
        (Real.norm_eq_abs _).symm
    _ ≤ tsum (fun i : ℕ => ‖x ^ (i + 5) / ((i + 5).factorial : ℝ)‖) :=
        norm_tsum_le_tsum_norm hsum.norm
    _ ≤ tsum (fun i : ℕ => |x| ^ 5 / 120 * (|x| ^ i / (i.factorial : ℝ))) :=
        tsum_le_tsum hbound hsum.norm (hsa.summable.mul_left _)
    _ = |x| ^ 5 / 120 * Real.exp |x| := by rw [tsum_mul_left, hsa.tsum_eq]
    _ = |x| ^ 5 * Real.exp |x| / 120 := by ring

/-! ## The Euler-Lagrange equations -/

/-- The accelerations of the planar double pendulum as the mechanics gives them:
the velocity term of the first one is `ω2²·l2 + ω1²·l1·cos(θ1 − θ2)`. They solve both
Euler-Lagrange equations. -/
theorem lagrangian_accelerations_solve (m1 m2 l1 l2 g θ1 θ2 ω1 ω2 : ℝ)
    (hm1 : 0 < m1) (hm2 : 0 < m2) (hl1 : 0 < l1) (hl2 : 0 < l2) :
    eulerLagrange1 Real.sin Real.cos m1 m2 l1 l2 g θ1 θ2 ω2
        ((-g * (2 * m1 + m2) * Real.sin θ1 - m2 * g * Real.sin (θ1 - 2 * θ2)
          - 2 * Real.sin (θ1 - θ2) * m2 * (ω2 ^ 2 * l2 + ω1 ^ 2 * l1 * Real.cos (θ1 - θ2)))
          / (l1 * denomAt Real.cos m1 m2 θ1 θ2))
        ((2 * Real.sin (θ1 - θ2) * (ω1 ^ 2 * l1 * (m1 + m2) + g * (m1 + m2) * Real.cos θ1
          + ω2 ^ 2 * l2 * m2 * Real.cos (θ1 - θ2))) / (l2 * denomAt Real.cos m1 m2 θ1 θ2)) = 0 ∧
    eulerLagrange2 Real.sin Real.cos l1 l2 g θ1 θ2 ω1
        ((-g * (2 * m1 + m2) * Real.sin θ1 - m2 * g * Real.sin (θ1 - 2 * θ2)
          - 2 * Real.sin (θ1 - θ2) * m2 * (ω2 ^ 2 * l2 + ω1 ^ 2 * l1 * Real.cos (θ1 - θ2)))
          / (l1 * denomAt Real.cos m1 m2 θ1 θ2))
        ((2 * Real.sin (θ1 - θ2) * (ω1 ^ 2 * l1 * (m1 + m2) + g * (m1 + m2) * Real.cos θ1
          + ω2 ^ 2 * l2 * m2 * Real.cos (θ1 - θ2))) / (l2 * denomAt Real.cos m1 m2 θ1 θ2)) = 0 := by
  have hc := Real.cos_le_one (2 * (θ1 - θ2))
  have hd : 0 < denomAt Real.cos m1 m2 θ1 θ2 := by
    have : 2 * m1 ≤ denomAt Real.cos m1 m2 θ1 θ2 := by
      simp only [denomAt]
      nlinarith [mul_nonneg hm2.le (sub_nonneg.mpr hc)]
    linarith
  have hd0 : denomAt Real.cos m1 m2 θ1 θ2 ≠ 0 := hd.ne'
  have hl1' := hl1.ne'
  have hl2' := hl2.ne'
  have e1 : Real.sin (θ1 - 2 * θ2)
      = Real.sin (θ1 - θ2) * Real.cos θ2 - Real.cos (θ1 - θ2) * Real.sin θ2 := by
    rw [← Real.sin_sub]
    ring_nf
  have e2 : Real.sin θ1
      = Real.sin (θ1 - θ2) * Real.cos θ2 + Real.cos (θ1 - θ2) * Real.sin θ2 := by
    rw [← Real.sin_add]
    ring_nf
  have e3 : Real.cos θ1
      = Real.cos (θ1 - θ2) * Real.cos θ2 - Real.sin (θ1 - θ2) * Real.sin θ2 := by
    rw [← Real.cos_add]
    ring_nf
  have e4 : denomAt Real.cos m1 m2 θ1 θ2
      = 2 * m1 + m2 - m2 * (2 * Real.cos (θ1 - θ2) ^ 2 - 1) := by
    simp only [denomAt]
    rw [Real.cos_two_mul]
  have hsc := Real.sin_sq_add_cos_sq (θ1 - θ2)
  constructor
  · simp only [eulerLagrange1]
    field_simp
    rw [e4, e1, e2, e3]
    linear_combination (-4 * m2 * l1 * l2 * g * Real.cos (θ1 - θ2) * Real.sin θ2
      * (m1 ^ 2 + m2 ^ 2 * (1 - Real.cos (θ1 - θ2) ^ 2)
          + m1 * m2 * (2 - Real.cos (θ1 - θ2) ^ 2))) * hsc
  · simp only [eulerLagrange2]
    field_simp
    rw [e4, e1, e2, e3]
    linear_combination (-4 * l1 * l2 * g * Real.sin θ2
      * (m1 ^ 2 + m2 ^ 2 * (1 - Real.cos (θ1 - θ2) ^ 2)
          + m1 * m2 * (2 - Real.cos (θ1 - θ2) ^ 2))) * hsc

/-! ## The stepper on array objects -/

theorem mapIdx_ignoring_index {β γ : Type} (g : β → γ) (l : List β) :
    (l.mapIdx fun _ e => g e) = l.map g := by
  apply List.ext_getElem
  · simp
  · intro i h1 h2
    simp

theorem rk4Store_spec {α : Type} [LinearOrderedField α]
    (f : List (JsNum α) → List (JsNum α)) (state : Nat) (dt : JsNum α) (h : Store α)
    (hs : state < h.arrays.length) :
    (rk4Store f state dt h).2.read (rk4Store f state dt h).1 = rk4 f (h.read state) dt ∧
    (∀ p, p < h.arrays.length → (rk4Store f state dt h).2.read p = h.read p) ∧
    h.arrays.length ≤ (rk4Store f state dt h).1 := by
  have hget : ∀ (L : List (List (JsNum α))) (p : Nat), p < h.arrays.length →
      (h.arrays ++ L)[p]?.getD [] = h.arrays[p]?.getD [] := by
    intro L p hp
    rw [List.getElem?_append_left hp]
  refine ⟨?_, ?_, ?_⟩
  · simp [rk4Store, rk4, Store.map, Store.alloc, Store.read, hget _ _ hs,
      List.getElem_append_right, mapIdx_ignoring_index]
  · intro p hp
    simp [rk4Store, Store.map, Store.alloc, Store.read, hget _ _ hp]
  · simp [rk4Store, Store.map, Store.alloc]

/-! ## The claims

In the theorems below the numbers are the reals and `Math` is
`JsMath.mk Real.sin Real.cos Real.pi`. -/

/-- C1: for a derivative function `f` that returns, on every array of `n` finite
numbers, an array of `n` finite numbers (the real vector function `g`), `rk4 f s dt`
is the array of the components `s + k1/6 + k2/3 + k3/3 + k4/6` with
`k1 = g(s)·dt`, `k2 = g(s + k1/2)·dt`, `k3 = g(s + k2/2)·dt`, `k4 = g(s + k3)·dt`. -/
theorem rk4_componentwise {n : Nat} (f : List (JsNum ℝ) → List (JsNum ℝ))
    (g : (Fin n → ℝ) → (Fin n → ℝ)) (hf : ∀ x : Fin n → ℝ, f (enc x) = enc (g x))
    (s : Fin n → ℝ) (dt : ℝ) :
    rk4 f (enc s) (JsNum.fin dt) = enc (rk4Spec g s dt) ∧
      ∀ i, rk4Spec g s dt i =
        s i + g s i * dt / 6
          + g (fun j => s j + g s j * dt / 2) i * dt / 3
          + g (fun j => s j + g (fun j => s j + g s j * dt / 2) j * dt / 2) i * dt / 3
          + g (fun j => s j + g (fun j => s j +
              g (fun j => s j + g s j * dt / 2) j * dt / 2) j * dt) i * dt / 6 :=
  ⟨rk4_enc f g hf s dt, fun _ => rfl⟩

/-- Witness of C1: the equation `dx/dt = x` from `x = 2` with `dt = 1`. -/
theorem rk4_componentwise_witness :
    (∀ x : Fin 1 → ℝ, (fun y : List (JsNum ℝ) => y) (enc x) = enc ((fun v => v) x)) ∧
      rk4 (fun y : List (JsNum ℝ) => y) (enc ![(2 : ℝ)]) (JsNum.fin 1) =
        enc (rk4Spec (fun v => v) ![(2 : ℝ)] 1) :=
  ⟨fun _ => rfl, (rk4_componentwise (fun y => y) (fun v => v) (fun _ => rfl) ![2] 1).1⟩

/-- C2 at the double pendulum with unit lengths, masses and gravity, angles `0, 0`,
angular velocities `π, 0` and `dt = 1`: the angle `angle1` that `update` stores is
smaller than component 0 of the RK4 step of the section 4.3 derivative, because the
closure divides by the `denom` of the pre-step angles (here `2`) at every stage, where
section 4.3 takes `denom` at the stage's own angles (`4` at stages two and three). -/
theorem double_update_keeps_pre_step_denom :
    (DoublePendulum.update (JsMath.mk Real.sin Real.cos Real.pi)
        ⟨JsNum.fin Real.pi, JsNum.fin 0, JsNum.fin 1, JsNum.fin 1, JsNum.fin 1, JsNum.fin 1,
          JsNum.fin 0, JsNum.fin 0, JsNum.fin 1⟩ (JsNum.fin 1)).angle1 =
      JsNum.fin (Real.pi / 2 + (Real.pi - 1 - Real.pi ^ 2 / 2) / 3
        + (Real.pi - 2 - (Real.pi - 1 - Real.pi ^ 2 / 2) ^ 2) / 6) ∧
    rk4Spec (doubleRateSpec Real.sin Real.cos 1 1 1 1 1) ![0, 0, Real.pi, 0] 1 0 =
      Real.pi / 2 + (Real.pi - 1 / 2 - Real.pi ^ 2 / 4) / 3
        + (Real.pi - 1 - (Real.pi - 1 / 2 - Real.pi ^ 2 / 4) ^ 2 / 2) / 6 ∧
    Real.pi / 2 + (Real.pi - 1 - Real.pi ^ 2 / 2) / 3
        + (Real.pi - 2 - (Real.pi - 1 - Real.pi ^ 2 / 2) ^ 2) / 6
      < Real.pi / 2 + (Real.pi - 1 / 2 - Real.pi ^ 2 / 4) / 3
        + (Real.pi - 1 - (Real.pi - 1 / 2 - Real.pi ^ 2 / 4) ^ 2 / 2) / 6 := by
  have e : 2 * (Real.pi / 2) = Real.pi := by ring
  have hd : denomAt Real.cos (1 : ℝ) 1 0 0 = 2 := by
    simp [denomAt]
  refine ⟨?_, ?_, ?_⟩
  · rw [double_update_fin (JsMath.mk Real.sin Real.cos Real.pi) 1 1 1 1 0 0 Real.pi 0 1 1
      (by rw [hd]; norm_num) (by rw [hd]; norm_num)]
    simp only [hd, JsNum.fin.injEq]
    simp [rk4Spec, doubleRate, e]
    ring
  · simp [rk4Spec, doubleRateSpec, e]
    ring
  · have h3 := Real.pi_gt_three
    have h4 := Real.pi_lt_four
    have hw1 : Real.pi - 1 / 2 - Real.pi ^ 2 / 4 ≤ 1 / 2 := by
      nlinarith [sq_nonneg (Real.pi / 2 - 1)]
    have hw2 : -(1 / 2) ≤ Real.pi - 1 / 2 - Real.pi ^ 2 / 4 := by nlinarith
    have hw : (Real.pi - 1 / 2 - Real.pi ^ 2 / 4) ^ 2 ≤ 1 / 4 := by nlinarith
    nlinarith [sq_nonneg (Real.pi - 1 - Real.pi ^ 2 / 2), sq_nonneg Real.pi]

/-- C3, as the specification states it, fails at `θ = 0`, `gravity = length = 1`: the
closure returns the acceleration `1`, not `−(gravity/length)·cos θ = −1`. -/
theorem pendulum_accel_not_neg_cos :
    idx (Pendulum.changeFunction (JsMath.mk Real.sin Real.cos Real.pi)
        ⟨JsNum.fin 0, JsNum.fin 1, JsNum.fin 0, JsNum.fin 1⟩ [JsNum.fin 0, JsNum.fin 0]) 1
      ≠ JsNum.fin (-((1 : ℝ) / 1) * Real.cos 0) := by
  have h2 : (2 : ℝ) ≠ 0 := two_ne_zero
  simp [Pendulum.changeFunction, idx, JsMath.sin, JsMath.PI, h2]
  norm_num

/-- C3, amended: for every state `[θ, ω]`, every gravity and every non-zero length, the
acceleration component returned by the closure of `Pendulum.update`,
`−sin(θ − π/2)·(gravity/length)`, is `+(gravity/length)·cos θ`. -/
theorem pendulum_accel_eq_cos (angle0 velocity0 : JsNum ℝ) (θ ω gravity length : ℝ)
    (hl : length ≠ 0) :
    idx (Pendulum.changeFunction (JsMath.mk Real.sin Real.cos Real.pi)
        ⟨velocity0, JsNum.fin length, angle0, JsNum.fin gravity⟩ [JsNum.fin θ, JsNum.fin ω]) 1
      = JsNum.fin (-Real.sin (θ - Real.pi / 2) * (gravity / length)) ∧
    -Real.sin (θ - Real.pi / 2) * (gravity / length) = (gravity / length) * Real.cos θ := by
  have h2 : (2 : ℝ) ≠ 0 := two_ne_zero
  constructor
  · simp [Pendulum.changeFunction, idx, JsMath.sin, JsMath.PI, h2, hl]
  · rw [Real.sin_sub_pi_div_two]
    ring

/-- Witness of the amended C3 at `θ = 0`, `gravity = length = 1`. -/
theorem pendulum_accel_eq_cos_witness :
    (1 : ℝ) ≠ 0 ∧
    idx (Pendulum.changeFunction (JsMath.mk Real.sin Real.cos Real.pi)
        ⟨JsNum.fin 0, JsNum.fin 1, JsNum.fin 0, JsNum.fin 1⟩ [JsNum.fin 0, JsNum.fin 0]) 1
      = JsNum.fin (-Real.sin (0 - Real.pi / 2) * (1 / 1)) ∧
    -Real.sin (0 - Real.pi / 2) * ((1 : ℝ) / 1) = ((1 : ℝ) / 1) * Real.cos 0 :=
  ⟨one_ne_zero, pendulum_accel_eq_cos (JsNum.fin 0) (JsNum.fin 0) 0 0 1 1 one_ne_zero⟩

/-- C4, as the specification states it, fails for the pendulum with `length = 1`,
`gravity = 1`, `angle = −1`, `angularVelocity = 0` and `dt = 0`: the stored angle after
the update is `−1`, which is not in `[0, 2π)`. -/
theorem pendulum_angle_negative_after_update :
    ¬ ∃ a : ℝ,
      (Pendulum.update (JsMath.mk Real.sin Real.cos Real.pi)
        ⟨JsNum.fin 0, JsNum.fin 1, JsNum.fin (-1), JsNum.fin 1⟩ (JsNum.fin 0)).angle = JsNum.fin a
        ∧ 0 ≤ a ∧ a < 2 * Real.pi := by
  have hpos : (0 : ℝ) < 2 * Real.pi := by positivity
  have h3 := Real.pi_gt_three
  have ht : JsNum.trunc ((-1 : ℝ) / (2 * Real.pi)) = 0 :=
    JsNum.trunc_eq_zero hpos (by linarith) (by linarith)
  rintro ⟨a, ha, h0, -⟩
  rw [pendulum_update_fin (JsMath.mk Real.sin Real.cos Real.pi) 1 (-1) 0 1 0 one_ne_zero
    Real.pi_ne_zero] at ha
  simp only [rk4Spec_zero, Matrix.cons_val_zero, ht, Int.cast_zero, mul_zero, sub_zero,
    JsNum.fin.injEq] at ha
  linarith

/-- C4, amended: for every pendulum with finite fields and non-zero (in particular
positive) length and every real `dt`, the angle stored by `update(dt)` is a finite
number strictly between `−2π` and `2π`, and it is in `[0, 2π)` whenever the angle `r0`
returned by `rk4` is non-negative. -/
theorem pendulum_angle_range (length θ ω gravity dt : ℝ) (hl : length ≠ 0) :
    ∃ r0 a : ℝ,
      idx (rk4 (Pendulum.changeFunction (JsMath.mk Real.sin Real.cos Real.pi)
          ⟨JsNum.fin ω, JsNum.fin length, JsNum.fin θ, JsNum.fin gravity⟩)
          [JsNum.fin θ, JsNum.fin ω] (JsNum.fin dt)) 0 = JsNum.fin r0 ∧
      (Pendulum.update (JsMath.mk Real.sin Real.cos Real.pi)
          ⟨JsNum.fin ω, JsNum.fin length, JsNum.fin θ, JsNum.fin gravity⟩
          (JsNum.fin dt)).angle = JsNum.fin a ∧
      -(2 * Real.pi) < a ∧ a < 2 * Real.pi ∧ (0 ≤ r0 → 0 ≤ a) := by
  have hpos : (0 : ℝ) < 2 * Real.pi := by positivity
  refine ⟨rk4Spec (pendulumRate Real.sin Real.pi gravity length) ![θ, ω] dt 0,
    rk4Spec (pendulumRate Real.sin Real.pi gravity length) ![θ, ω] dt 0
      - 2 * Real.pi * (JsNum.trunc
          (rk4Spec (pendulumRate Real.sin Real.pi gravity length) ![θ, ω] dt 0
            / (2 * Real.pi)) : ℝ), ?_, ?_, ?_, ?_, ?_⟩
  · rw [pendulum_rk4_fin _ _ _ length θ ω gravity dt hl]
    rfl
  · rw [pendulum_update_fin _ length θ ω gravity dt hl Real.pi_ne_zero]
  · rcases le_or_lt 0 (rk4Spec (pendulumRate Real.sin Real.pi gravity length) ![θ, ω] dt 0)
      with h | h
    · have := (JsNum.rem_of_nonneg hpos h).1
      linarith
    · exact (JsNum.rem_of_neg hpos h).1
  · rcases le_or_lt 0 (rk4Spec (pendulumRate Real.sin Real.pi gravity length) ![θ, ω] dt 0)
      with h | h
    · exact (JsNum.rem_of_nonneg hpos h).2
    · have := (JsNum.rem_of_neg hpos h).2
      linarith
  · intro h
    exact (JsNum.rem_of_nonneg hpos h).1

/-- Witness of the amended C4: length 1, gravity 1, angle −1, at rest, `dt = 0`. -/
theorem pendulum_angle_range_witness :
    (1 : ℝ) ≠ 0 ∧
    ∃ r0 a : ℝ,
      idx (rk4 (Pendulum.changeFunction (JsMath.mk Real.sin Real.cos Real.pi)
          ⟨JsNum.fin 0, JsNum.fin 1, JsNum.fin (-1), JsNum.fin 1⟩)
          [JsNum.fin (-1), JsNum.fin 0] (JsNum.fin 0)) 0 = JsNum.fin r0 ∧
      (Pendulum.update (JsMath.mk Real.sin Real.cos Real.pi)
          ⟨JsNum.fin 0, JsNum.fin 1, JsNum.fin (-1), JsNum.fin 1⟩
          (JsNum.fin 0)).angle = JsNum.fin a ∧
      -(2 * Real.pi) < a ∧ a < 2 * Real.pi ∧ (0 ≤ r0 → 0 ≤ a) :=
  ⟨one_ne_zero, pendulum_angle_range 1 (-1) 0 1 0 one_ne_zero⟩

/-- C5: for every pendulum with finite fields and non-zero length and every real `dt`,
with `r` the RK4 result for `f([θ, ω]) = [ω, −sin(θ − π/2)·(gravity/length)]` from
`[angle, angularVelocity]`, the call `rk4` made by `update(dt)` returns `r`, the stored
angular velocity is `r[1]`, and the stored angle is `r[0]` plus an integer multiple of
`2π`. -/
theorem pendulum_update_is_wrapped_rk4 (length θ ω gravity dt : ℝ) (hl : length ≠ 0) :
    rk4 (Pendulum.changeFunction (JsMath.mk Real.sin Real.cos Real.pi)
        ⟨JsNum.fin ω, JsNum.fin length, JsNum.fin θ, JsNum.fin gravity⟩)
        [JsNum.fin θ, JsNum.fin ω] (JsNum.fin dt) =
      [JsNum.fin (rk4Spec (pendulumRate Real.sin Real.pi gravity length) ![θ, ω] dt 0),
        JsNum.fin (rk4Spec (pendulumRate Real.sin Real.pi gravity length) ![θ, ω] dt 1)] ∧
    (Pendulum.update (JsMath.mk Real.sin Real.cos Real.pi)
        ⟨JsNum.fin ω, JsNum.fin length, JsNum.fin θ, JsNum.fin gravity⟩
        (JsNum.fin dt)).angularVelocity =
      JsNum.fin (rk4Spec (pendulumRate Real.sin Real.pi gravity length) ![θ, ω] dt 1) ∧
    ∃ k : ℤ,
      (Pendulum.update (JsMath.mk Real.sin Real.cos Real.pi)
        ⟨JsNum.fin ω, JsNum.fin length, JsNum.fin θ, JsNum.fin gravity⟩
        (JsNum.fin dt)).angle =
      JsNum.fin (rk4Spec (pendulumRate Real.sin Real.pi gravity length) ![θ, ω] dt 0
        + (k : ℝ) * (2 * Real.pi)) := by
  refine ⟨pendulum_rk4_fin _ _ _ length θ ω gravity dt hl, ?_, ?_⟩
  · rw [pendulum_update_fin _ length θ ω gravity dt hl Real.pi_ne_zero]
  · refine ⟨-JsNum.trunc (rk4Spec (pendulumRate Real.sin Real.pi gravity length)
      ![θ, ω] dt 0 / (2 * Real.pi)), ?_⟩
    rw [pendulum_update_fin _ length θ ω gravity dt hl Real.pi_ne_zero]
    simp only [JsNum.fin.injEq]
    push_cast
    ring

/-- Witness of C5: length 1, gravity 1, angle 7, at rest, `dt = 0`. -/
theorem pendulum_update_is_wrapped_rk4_witness :
    (1 : ℝ) ≠ 0 ∧
    (Pendulum.update (JsMath.mk Real.sin Real.cos Real.pi)
        ⟨JsNum.fin 0, JsNum.fin 1, JsNum.fin 7, JsNum.fin 1⟩
        (JsNum.fin 0)).angularVelocity =
      JsNum.fin (rk4Spec (pendulumRate Real.sin Real.pi 1 1) ![7, 0] 0 1) :=
  ⟨one_ne_zero, (pendulum_update_is_wrapped_rk4 1 7 0 1 0 one_ne_zero).2.1⟩

/-- C6: for every derivative function `f` whose value at the state `s` is an array of
finite numbers of the same length as `s`, `rk4 f s 0 = s`. -/
theorem rk4_zero_dt {n : Nat} (f : List (JsNum ℝ) → List (JsNum ℝ)) (s y : Fin n → ℝ)
    (hf : f (enc s) = enc y) : rk4 f (enc s) (JsNum.fin 0) = enc s :=
  rk4_enc_zero f s y hf

/-- Witness of C6: the constant derivative `[3, 4]` at the state `[1, 2]`. -/
theorem rk4_zero_dt_witness :
    (fun _ : List (JsNum ℝ) => enc ![(3 : ℝ), 4]) (enc ![(1 : ℝ), 2]) = enc ![(3 : ℝ), 4] ∧
    rk4 (fun _ : List (JsNum ℝ) => enc ![(3 : ℝ), 4]) (enc ![(1 : ℝ), 2]) (JsNum.fin 0) =
      enc ![(1 : ℝ), 2] :=
  ⟨rfl, rk4_zero_dt (fun _ => enc ![(3 : ℝ), 4]) ![1, 2] ![3, 4] rfl⟩

/-- C7: `update(0)` on a pendulum with finite fields and non-zero length leaves
`angularVelocity` unchanged and sets `angle` to `angle % (2π)`, which is the old angle
whenever `−2π < angle < 2π`; `update(0)` on a double pendulum with finite fields,
non-zero lengths and non-zero denominator leaves the whole object unchanged. -/
theorem update_zero_dt (length θ ω gravity : ℝ) (hl : length ≠ 0)
    (l1 l2 m1 m2 θ1 θ2 ω1 ω2 g : ℝ) (h1 : l1 ≠ 0) (h2 : l2 ≠ 0)
    (hd : denomAt Real.cos m1 m2 θ1 θ2 ≠ 0) :
    ((Pendulum.update (JsMath.mk Real.sin Real.cos Real.pi)
        ⟨JsNum.fin ω, JsNum.fin length, JsNum.fin θ, JsNum.fin gravity⟩
        (JsNum.fin 0)).angularVelocity = JsNum.fin ω ∧
      (Pendulum.update (JsMath.mk Real.sin Real.cos Real.pi)
        ⟨JsNum.fin ω, JsNum.fin length, JsNum.fin θ, JsNum.fin gravity⟩
        (JsNum.fin 0)).angle =
          JsNum.fin θ % (2 * JsMath.PI (JsMath.mk Real.sin Real.cos Real.pi)) ∧
      (-(2 * Real.pi) < θ → θ < 2 * Real.pi →
        (Pendulum.update (JsMath.mk Real.sin Real.cos Real.pi)
          ⟨JsNum.fin ω, JsNum.fin length, JsNum.fin θ, JsNum.fin gravity⟩
          (JsNum.fin 0)).angle = JsNum.fin θ)) ∧
    DoublePendulum.update (JsMath.mk Real.sin Real.cos Real.pi)
        ⟨JsNum.fin ω1, JsNum.fin ω2, JsNum.fin l1, JsNum.fin l2, JsNum.fin m1, JsNum.fin m2,
          JsNum.fin θ1, JsNum.fin θ2, JsNum.fin g⟩ (JsNum.fin 0) =
      ⟨JsNum.fin ω1, JsNum.fin ω2, JsNum.fin l1, JsNum.fin l2, JsNum.fin m1, JsNum.fin m2,
        JsNum.fin θ1, JsNum.fin θ2, JsNum.fin g⟩ := by
  have hpos : (0 : ℝ) < 2 * Real.pi := by positivity
  refine ⟨⟨?_, ?_, ?_⟩, ?_⟩
  · rw [pendulum_update_fin _ length θ ω gravity 0 hl Real.pi_ne_zero]
    simp [rk4Spec_zero]
  · rw [pendulum_update_fin _ length θ ω gravity 0 hl Real.pi_ne_zero]
    simp [rk4Spec_zero, JsMath.PI, hpos.ne']
  · intro ha hb
    rw [pendulum_update_fin _ length θ ω gravity 0 hl Real.pi_ne_zero]
    simp [rk4Spec_zero, JsNum.trunc_eq_zero hpos ha hb]
  · rw [double_update_fin _ l1 l2 m1 m2 θ1 θ2 ω1 ω2 g 0 (mul_ne_zero h1 hd)
      (mul_ne_zero h2 hd)]
    simp [rk4Spec_zero]

/-- Witness of C7: a pendulum of length 1 at angle 1 and velocity 5, and a double
pendulum with unit lengths and masses at angles `0, 0` and velocities `3, 4`. -/
theorem update_zero_dt_witness :
    (1 : ℝ) ≠ 0 ∧ denomAt Real.cos (1 : ℝ) 1 0 0 ≠ 0 ∧
    (Pendulum.update (JsMath.mk Real.sin Real.cos Real.pi)
        ⟨JsNum.fin 5, JsNum.fin 1, JsNum.fin 1, JsNum.fin 1⟩ (JsNum.fin 0)).angle
      = JsNum.fin 1 ∧
    DoublePendulum.update (JsMath.mk Real.sin Real.cos Real.pi)
        ⟨JsNum.fin 3, JsNum.fin 4, JsNum.fin 1, JsNum.fin 1, JsNum.fin 1, JsNum.fin 1,
          JsNum.fin 0, JsNum.fin 0, JsNum.fin 1⟩ (JsNum.fin 0) =
      ⟨JsNum.fin 3, JsNum.fin 4, JsNum.fin 1, JsNum.fin 1, JsNum.fin 1, JsNum.fin 1,
        JsNum.fin 0, JsNum.fin 0, JsNum.fin 1⟩ := by
  have hd : denomAt Real.cos (1 : ℝ) 1 0 0 ≠ 0 := by
    simp [denomAt]
  have h3 := Real.pi_gt_three
  have h := update_zero_dt 1 1 5 1 one_ne_zero 1 1 1 1 0 0 3 4 1 one_ne_zero one_ne_zero hd
  exact ⟨one_ne_zero, hd, h.1.2.2 (by linarith) (by linarith), h.2⟩

/-- C9: for a derivative function that is a linear map `g` on real vectors of length
`n`, `rk4` returns `s + dt·g(s) + (dt²/2)·g²(s) + (dt³/6)·g³(s) + (dt⁴/24)·g⁴(s)`; for
the scalar equation `dx/dt = x` it returns `x0·(1 + dt + dt²/2 + dt³/6 + dt⁴/24)`,
which is within `|x0|·|dt|⁵·e^|dt|/120` of `x0·e^dt`. -/
theorem rk4_linear_taylor {n : Nat} (f : List (JsNum ℝ) → List (JsNum ℝ))
    (g : (Fin n → ℝ) →ₗ[ℝ] (Fin n → ℝ)) (hf : ∀ x : Fin n → ℝ, f (enc x) = enc (g x))
    (s : Fin n → ℝ) (dt x0 : ℝ) :
    rk4 f (enc s) (JsNum.fin dt) =
      enc (s + dt • g s + (dt ^ 2 / 2) • g (g s) + (dt ^ 3 / 6) • g (g (g s))
        + (dt ^ 4 / 24) • g (g (g (g s)))) ∧
    rk4 (fun x => x) [JsNum.fin x0] (JsNum.fin dt) =
      [JsNum.fin (x0 * (1 + dt + dt ^ 2 / 2 + dt ^ 3 / 6 + dt ^ 4 / 24))] ∧
    |x0 * (1 + dt + dt ^ 2 / 2 + dt ^ 3 / 6 + dt ^ 4 / 24) - x0 * Real.exp dt|
      ≤ |x0| * |dt| ^ 5 * Real.exp |dt| / 120 := by
  refine ⟨?_, rk4_scalar_identity x0 dt, ?_⟩
  · rw [rk4_enc f g hf s dt, rk4Spec_linear]
  · have hb := exp_sub_taylor4_le dt
    have hx : x0 * (1 + dt + dt ^ 2 / 2 + dt ^ 3 / 6 + dt ^ 4 / 24) - x0 * Real.exp dt
        = -(x0 * (Real.exp dt - (1 + dt + dt ^ 2 / 2 + dt ^ 3 / 6 + dt ^ 4 / 24))) := by ring
    rw [hx, abs_neg, abs_mul]
    calc |x0| * |Real.exp dt - (1 + dt + dt ^ 2 / 2 + dt ^ 3 / 6 + dt ^ 4 / 24)|
        ≤ |x0| * (|dt| ^ 5 * Real.exp |dt| / 120) :=
          mul_le_mul_of_nonneg_left hb (abs_nonneg x0)
      _ = |x0| * |dt| ^ 5 * Real.exp |dt| / 120 := by ring

/-- Witness of C9: the system `dx/dt = x` on vectors of length 2, from `[1, 2]` with
`dt = 1`. -/
theorem rk4_linear_taylor_witness :
    (∀ x : Fin 2 → ℝ, (fun y : List (JsNum ℝ) => y) (enc x)
        = enc ((LinearMap.id : (Fin 2 → ℝ) →ₗ[ℝ] (Fin 2 → ℝ)) x)) ∧
    rk4 (fun y : List (JsNum ℝ) => y) (enc ![(1 : ℝ), 2]) (JsNum.fin 1) =
      enc (![(1 : ℝ), 2] + (1 : ℝ) • ![(1 : ℝ), 2] + ((1 : ℝ) ^ 2 / 2) • ![(1 : ℝ), 2]
        + ((1 : ℝ) ^ 3 / 6) • ![(1 : ℝ), 2] + ((1 : ℝ) ^ 4 / 24) • ![(1 : ℝ), 2]) :=
  ⟨fun _ => rfl,
    (rk4_linear_taylor (fun y => y) LinearMap.id (fun _ => rfl) ![1, 2] 1 1).1⟩

/-- C10 at the double pendulum with unit lengths, masses and gravity, angles
`π/2, 0` and angular velocities `1, 0`: the closure of `update` returns the
accelerations `−3/2` and `1` at the current state, and with them the left-hand side of
the first Euler-Lagrange equation is `−1`, not `0`. -/
theorem double_rate_misses_euler_lagrange :
    DoublePendulum.changeFunction (JsMath.mk Real.sin Real.cos Real.pi)
        ⟨JsNum.fin 1, JsNum.fin 0, JsNum.fin 1, JsNum.fin 1, JsNum.fin 1, JsNum.fin 1,
          JsNum.fin (Real.pi / 2), JsNum.fin 0, JsNum.fin 1⟩
        [JsNum.fin (Real.pi / 2), JsNum.fin 0, JsNum.fin 1, JsNum.fin 0] =
      [JsNum.fin 1, JsNum.fin 0, JsNum.fin (-3 / 2), JsNum.fin 1] ∧
    eulerLagrange1 Real.sin Real.cos 1 1 1 1 1 (Real.pi / 2) 0 0 (-3 / 2) 1 = -1 ∧
    eulerLagrange1 Real.sin Real.cos 1 1 1 1 1 (Real.pi / 2) 0 0 (-3 / 2) 1 ≠ 0 := by
  have e : 2 * (Real.pi / 2) = Real.pi := by ring
  have hval : eulerLagrange1 Real.sin Real.cos 1 1 1 1 1 (Real.pi / 2) 0 0 (-3 / 2) 1
      = -1 := by
    simp [eulerLagrange1]
    norm_num
  refine ⟨?_, hval, ?_⟩
  · simp [DoublePendulum.changeFunction, DoublePendulum.denom, idx, JsMath.sin, JsMath.cos, e]
    norm_num
  · rw [hval]
    norm_num

/-- C12: for every double pendulum with finite fields, non-zero lengths and non-zero
denominator, the closure built by `update`, at the pre-step state
`[angle1, angle2, angularVelocity1, angularVelocity2]`, returns the four values of
section 4.3: `ω1`, `ω2`, and the two quotients with
`denom = 2·m1 + m2 − m2·cos(2·(θ1 − θ2))`. -/
theorem double_rate_at_pre_step (l1 l2 m1 m2 θ1 θ2 ω1 ω2 g : ℝ) (h1 : l1 ≠ 0) (h2 : l2 ≠ 0)
    (hd : 2 * m1 + m2 - m2 * Real.cos (2 * (θ1 - θ2)) ≠ 0) :
    DoublePendulum.changeFunction (JsMath.mk Real.sin Real.cos Real.pi)
        ⟨JsNum.fin ω1, JsNum.fin ω2, JsNum.fin l1, JsNum.fin l2, JsNum.fin m1, JsNum.fin m2,
          JsNum.fin θ1, JsNum.fin θ2, JsNum.fin g⟩
        [JsNum.fin θ1, JsNum.fin θ2, JsNum.fin ω1, JsNum.fin ω2] =
      [JsNum.fin ω1,
        JsNum.fin ω2,
        JsNum.fin ((-g * (2 * m1 + m2) * Real.sin θ1 - m2 * g * Real.sin (θ1 - 2 * θ2)
          - 2 * Real.sin (θ1 - θ2) * m2
            * (ω1 ^ 2 * l2 + ω2 ^ 2 * l1 * Real.cos (θ1 - θ2)))
          / (l1 * (2 * m1 + m2 - m2 * Real.cos (2 * (θ1 - θ2))))),
        JsNum.fin ((2 * Real.sin (θ1 - θ2) * (ω1 ^ 2 * l1 * (m1 + m2)
          + g * (m1 + m2) * Real.cos θ1 + ω2 ^ 2 * l2 * m2 * Real.cos (θ1 - θ2)))
          / (l2 * (2 * m1 + m2 - m2 * Real.cos (2 * (θ1 - θ2)))))] ∧
    [JsNum.fin ω1,
        JsNum.fin ω2,
        JsNum.fin ((-g * (2 * m1 + m2) * Real.sin θ1 - m2 * g * Real.sin (θ1 - 2 * θ2)
          - 2 * Real.sin (θ1 - θ2) * m2
            * (ω1 ^ 2 * l2 + ω2 ^ 2 * l1 * Real.cos (θ1 - θ2)))
          / (l1 * (2 * m1 + m2 - m2 * Real.cos (2 * (θ1 - θ2))))),
        JsNum.fin ((2 * Real.sin (θ1 - θ2) * (ω1 ^ 2 * l1 * (m1 + m2)
          + g * (m1 + m2) * Real.cos θ1 + ω2 ^ 2 * l2 * m2 * Real.cos (θ1 - θ2)))
          / (l2 * (2 * m1 + m2 - m2 * Real.cos (2 * (θ1 - θ2)))))] =
      enc (doubleRateSpec Real.sin Real.cos m1 m2 l1 l2 g ![θ1, θ2, ω1, ω2]) := by
  have hd1 : l1 * denomAt Real.cos m1 m2 θ1 θ2 ≠ 0 := mul_ne_zero h1 hd
  have hd2 : l2 * denomAt Real.cos m1 m2 θ1 θ2 ≠ 0 := mul_ne_zero h2 hd
  have hs : [JsNum.fin θ1, JsNum.fin θ2, JsNum.fin ω1, JsNum.fin ω2] = enc ![θ1, θ2, ω1, ω2] := by
    simp [enc_four]
  constructor
  · rw [hs, double_changeFunction_enc _ _ _ l1 l2 m1 m2 θ1 θ2 g hd1 hd2, enc_four]
    simp [doubleRate, denomAt, pow_two]
  · rw [enc_four]
    simp [doubleRateSpec]

/-- Witness of C12: unit lengths, masses and gravity, angles `0, 0`, velocities `3, 4`. -/
theorem double_rate_at_pre_step_witness :
    (1 : ℝ) ≠ 0 ∧ (2 * 1 + 1 - 1 * Real.cos (2 * (0 - 0)) : ℝ) ≠ 0 ∧
    DoublePendulum.changeFunction (JsMath.mk Real.sin Real.cos Real.pi)
        ⟨JsNum.fin 3, JsNum.fin 4, JsNum.fin 1, JsNum.fin 1, JsNum.fin 1, JsNum.fin 1,
          JsNum.fin 0, JsNum.fin 0, JsNum.fin 1⟩
        [JsNum.fin 0, JsNum.fin 0, JsNum.fin 3, JsNum.fin 4] =
      [JsNum.fin 3, JsNum.fin 4, JsNum.fin 0, JsNum.fin 0] := by
  have hd : (2 * 1 + 1 - 1 * Real.cos (2 * (0 - 0)) : ℝ) ≠ 0 := by simp
  refine ⟨one_ne_zero, hd, ?_⟩
  have h := (double_rate_at_pre_step 1 1 1 1 0 0 3 4 1 one_ne_zero one_ne_zero hd).1
  simpa using h

/-- C13: `update(dt)` changes only the state fields: a pendulum keeps `length` and
`gravity`, a double pendulum keeps `length1`, `length2`, `mass1`, `mass2` and `gravity`,
whatever the fields and `dt` are. -/
theorem update_keeps_constants (Math : JsMath ℝ) (p : Pendulum ℝ) (q : DoublePendulum ℝ)
    (dt : JsNum ℝ) :
    ((Pendulum.update Math p dt).length = p.length ∧
      (Pendulum.update Math p dt).gravity = p.gravity) ∧
    (DoublePendulum.update Math q dt).length1 = q.length1 ∧
    (DoublePendulum.update Math q dt).length2 = q.length2 ∧
    (DoublePendulum.update Math q dt).mass1 = q.mass1 ∧
    (DoublePendulum.update Math q dt).mass2 = q.mass2 ∧
    (DoublePendulum.update Math q dt).gravity = q.gravity :=
  ⟨⟨rfl, rfl⟩, rfl, rfl, rfl, rfl, rfl⟩

/-- C15: `new Pendulum(length, angle, gravity)` stores its three arguments in the fields
of the same names and sets `angularVelocity` to `0`;
`new DoublePendulum(length1, length2, angle1, angle2, mass1, mass2, gravity)` stores its
seven arguments in the fields of the same names and sets both angular velocities to
`0`. -/
theorem constructors_store_arguments
    (length angle gravity length1 length2 angle1 angle2 mass1 mass2 gravity2 : JsNum ℝ) :
    (Pendulum.new length angle gravity =
      { angularVelocity := JsNum.fin 0, length := length, angle := angle,
        gravity := gravity }) ∧
    DoublePendulum.new length1 length2 angle1 angle2 mass1 mass2 gravity2 =
      { angularVelocity1 := JsNum.fin 0, angularVelocity2 := JsNum.fin 0,
        length1 := length1, length2 := length2, mass1 := mass1, mass2 := mass2,
        angle1 := angle1, angle2 := angle2, gravity := gravity2 } :=
  ⟨rfl, rfl⟩

/-- C11, as the specification states it, fails at `θ = 0`, `ω = 1`, `length = 1`,
`gravity = 1`: the closure returns the derivative `[1, 1]`, and the rate
`length²·ω·ω' + gravity·length·sin(θ)·θ'` is `1`, not `0`. -/
theorem pendulum_energy_spec_not_conserved :
    Pendulum.changeFunction (JsMath.mk Real.sin Real.cos Real.pi)
        ⟨JsNum.fin 1, JsNum.fin 1, JsNum.fin 0, JsNum.fin 1⟩ [JsNum.fin 0, JsNum.fin 1]
      = [JsNum.fin 1, JsNum.fin 1] ∧
    HasDerivAt (fun t : ℝ => energySpec Real.cos 1 1 (0 + t * 1) (1 + t * 1))
      (energySpecRate Real.sin 1 1 0 1 1 1) 0 ∧
    energySpecRate Real.sin 1 1 0 1 1 1 ≠ 0 := by
  have h2 : (2 : ℝ) ≠ 0 := two_ne_zero
  refine ⟨?_, ?_, ?_⟩
  · simp [Pendulum.changeFunction, idx, JsMath.sin, JsMath.PI, h2]
  · have hθ : HasDerivAt (fun t : ℝ => 0 + t * 1) (1 : ℝ) 0 := by
      simpa using ((hasDerivAt_id (0 : ℝ)).mul_const (1 : ℝ)).const_add 0
    have hω : HasDerivAt (fun t : ℝ => 1 + t * 1) (1 : ℝ) 0 := by
      simpa using ((hasDerivAt_id (0 : ℝ)).mul_const (1 : ℝ)).const_add 1
    have hcos := hθ.cos
    have hsq := hω.pow 2
    have hall := (((hsq.const_mul (1 / 2 : ℝ)).mul_const ((1 : ℝ) ^ 2)).sub
      (hcos.const_mul ((1 : ℝ) * 1)))
    convert hall using 1
    simp [energySpecRate]
  · simp [energySpecRate]

/-- C11, amended: for every state `[θ, ω]`, every gravity and every non-zero length,
with `[θ', ω']` the derivative the closure of `Pendulum.update` returns at `[θ, ω]`,
the energy `½·ω²·length² − gravity·length·sin(θ)` has the rate of change
`length²·ω·ω' − gravity·length·cos(θ)·θ'` along `[θ', ω']`, and this rate is zero;
the rate `length²·ω·ω' + gravity·length·sin(θ)·θ'` of the energy with `cos(θ)` is
`gravity·length·ω·(cos(θ) + sin(θ))`. -/
theorem pendulum_energy_canvas_conserved (angle0 velocity0 : JsNum ℝ)
    (θ ω gravity length : ℝ) (hl : length ≠ 0) :
    ∃ dθ dω : ℝ,
      Pendulum.changeFunction (JsMath.mk Real.sin Real.cos Real.pi)
          ⟨velocity0, JsNum.fin length, angle0, JsNum.fin gravity⟩ [JsNum.fin θ, JsNum.fin ω]
        = [JsNum.fin dθ, JsNum.fin dω] ∧
      HasDerivAt (fun t : ℝ => energyCanvas Real.sin length gravity (θ + t * dθ) (ω + t * dω))
        (energyCanvasRate Real.cos length gravity θ ω dθ dω) 0 ∧
      energyCanvasRate Real.cos length gravity θ ω dθ dω = 0 ∧
      energySpecRate Real.sin length gravity θ ω dθ dω
        = gravity * length * ω * (Real.cos θ + Real.sin θ) := by
  have h2 : (2 : ℝ) ≠ 0 := two_ne_zero
  refine ⟨ω, -Real.sin (θ - Real.pi / 2) * (gravity / length), ?_, ?_, ?_, ?_⟩
  · simp [Pendulum.changeFunction, idx, JsMath.sin, JsMath.PI, h2, hl]
  · have hθ : HasDerivAt (fun t : ℝ => θ + t * ω) ω 0 := by
      simpa using ((hasDerivAt_id (0 : ℝ)).mul_const ω).const_add θ
    have hω : HasDerivAt
        (fun t : ℝ => ω + t * (-Real.sin (θ - Real.pi / 2) * (gravity / length)))
        (-Real.sin (θ - Real.pi / 2) * (gravity / length)) 0 := by
      simpa using ((hasDerivAt_id (0 : ℝ)).mul_const
        (-Real.sin (θ - Real.pi / 2) * (gravity / length))).const_add ω
    have hsin := hθ.sin
    have hsq := hω.pow 2
    have hall := (((hsq.const_mul (1 / 2 : ℝ)).mul_const (length ^ 2)).sub
      (hsin.const_mul (gravity * length)))
    convert hall using 1
    simp [energyCanvasRate]
    ring
  · simp only [energyCanvasRate, Real.sin_sub_pi_div_two]
    field_simp
    ring
  · simp only [energySpecRate, Real.sin_sub_pi_div_two]
    field_simp
    ring

/-- Witness of the amended C11 at `θ = 0`, `ω = 1`, `length = 1`, `gravity = 1`. -/
theorem pendulum_energy_canvas_conserved_witness :
    (1 : ℝ) ≠ 0 ∧
    ∃ dθ dω : ℝ,
      Pendulum.changeFunction (JsMath.mk Real.sin Real.cos Real.pi)
          ⟨JsNum.fin 1, JsNum.fin 1, JsNum.fin 0, JsNum.fin 1⟩ [JsNum.fin 0, JsNum.fin 1]
        = [JsNum.fin dθ, JsNum.fin dω] ∧
      HasDerivAt (fun t : ℝ => energyCanvas Real.sin 1 1 (0 + t * dθ) (1 + t * dω))
        (energyCanvasRate Real.cos 1 1 0 1 dθ dω) 0 ∧
      energyCanvasRate Real.cos 1 1 0 1 dθ dω = 0 ∧
      energySpecRate Real.sin 1 1 0 1 dθ dω = 1 * 1 * 1 * (Real.cos 0 + Real.sin 0) :=
  ⟨one_ne_zero,
    pendulum_energy_canvas_conserved (JsNum.fin 0) (JsNum.fin 1) 0 1 1 1 one_ne_zero⟩

/-- C16: for every pendulum with finite fields and non-zero length and every real `dt`,
with `r0` the angle returned by `rk4`, the angle stored by `update(dt)` is
`r0 − 2π·k` for the integer `k = trunc(r0/(2π))`, the rounding of `r0/(2π)` towards zero
(`|k| ≤ |r0/(2π)|` and `|r0/(2π) − k| < 1`); its absolute value is less than `2π`, it is
never of opposite sign to `r0`, and it is `r0` whenever `|r0| < 2π`. -/
theorem pendulum_angle_truncated_remainder (length θ ω gravity dt : ℝ) (hl : length ≠ 0) :
    ∃ (r0 a : ℝ) (k : ℤ),
      idx (rk4 (Pendulum.changeFunction (JsMath.mk Real.sin Real.cos Real.pi)
          ⟨JsNum.fin ω, JsNum.fin length, JsNum.fin θ, JsNum.fin gravity⟩)
          [JsNum.fin θ, JsNum.fin ω] (JsNum.fin dt)) 0 = JsNum.fin r0 ∧
      (Pendulum.update (JsMath.mk Real.sin Real.cos Real.pi)
          ⟨JsNum.fin ω, JsNum.fin length, JsNum.fin θ, JsNum.fin gravity⟩
          (JsNum.fin dt)).angle = JsNum.fin a ∧
      k = JsNum.trunc (r0 / (2 * Real.pi)) ∧
      a = r0 - 2 * Real.pi * (k : ℝ) ∧
      |(k : ℝ)| ≤ |r0 / (2 * Real.pi)| ∧ |r0 / (2 * Real.pi) - (k : ℝ)| < 1 ∧
      |a| < 2 * Real.pi ∧ (0 ≤ r0 → 0 ≤ a) ∧ (r0 ≤ 0 → a ≤ 0) ∧
      (|r0| < 2 * Real.pi → a = r0) := by
  have hpos : (0 : ℝ) < 2 * Real.pi := by positivity
  obtain ⟨r0, hr0⟩ : ∃ r0 : ℝ,
      r0 = rk4Spec (pendulumRate Real.sin Real.pi gravity length) ![θ, ω] dt 0 := ⟨_, rfl⟩
  refine ⟨r0, r0 - 2 * Real.pi * (JsNum.trunc (r0 / (2 * Real.pi)) : ℝ),
    JsNum.trunc (r0 / (2 * Real.pi)), ?_, ?_, rfl, rfl, ?_, ?_, ?_, ?_, ?_, ?_⟩
  · rw [pendulum_rk4_fin _ _ _ length θ ω gravity dt hl, hr0]
    rfl
  · rw [pendulum_update_fin _ length θ ω gravity dt hl Real.pi_ne_zero, hr0]
  · rcases le_or_lt 0 (r0 / (2 * Real.pi)) with h | h
    · rw [JsNum.trunc_of_nonneg h, abs_of_nonneg h,
        abs_of_nonneg (by exact_mod_cast Int.floor_nonneg.mpr h)]
      exact Int.floor_le _
    · have hc : ((Int.ceil (r0 / (2 * Real.pi)) : ℤ) : ℝ) ≤ 0 := by
        exact_mod_cast Int.ceil_le.mpr (by simpa using h.le)
      rw [JsNum.trunc_of_neg h, abs_of_neg h, abs_of_nonpos hc]
      linarith [Int.le_ceil (r0 / (2 * Real.pi))]
  · rcases le_or_lt 0 (r0 / (2 * Real.pi)) with h | h
    · rw [JsNum.trunc_of_nonneg h, abs_lt]
      constructor
      · linarith [Int.floor_le (r0 / (2 * Real.pi))]
      · linarith [Int.lt_floor_add_one (r0 / (2 * Real.pi))]
    · rw [JsNum.trunc_of_neg h, abs_lt]
      constructor
      · linarith [Int.ceil_lt_add_one (r0 / (2 * Real.pi))]
      · linarith [Int.le_ceil (r0 / (2 * Real.pi))]
  · rw [abs_lt]
    rcases le_or_lt 0 r0 with h | h
    · have := JsNum.rem_of_nonneg hpos h
      constructor <;> linarith
    · have := JsNum.rem_of_neg hpos h
      constructor <;> linarith
  · intro h
    exact (JsNum.rem_of_nonneg hpos h).1
  · intro h
    rcases h.lt_or_eq with h0 | h0
    · exact (JsNum.rem_of_neg hpos h0).2
    · have := JsNum.rem_of_nonneg hpos h0.ge
      rw [h0] at this ⊢
      simp [JsNum.trunc]
  · intro h
    rw [abs_lt] at h
    rw [JsNum.trunc_eq_zero hpos h.1 h.2]
    simp

/-- Witness of C16: length 1, gravity 1, angle −1, at rest, `dt = 0`. -/
theorem pendulum_angle_truncated_remainder_witness :
    (1 : ℝ) ≠ 0 ∧
    ∃ (r0 a : ℝ) (k : ℤ),
      idx (rk4 (Pendulum.changeFunction (JsMath.mk Real.sin Real.cos Real.pi)
          ⟨JsNum.fin 0, JsNum.fin 1, JsNum.fin (-1), JsNum.fin 1⟩)
          [JsNum.fin (-1), JsNum.fin 0] (JsNum.fin 0)) 0 = JsNum.fin r0 ∧
      (Pendulum.update (JsMath.mk Real.sin Real.cos Real.pi)
          ⟨JsNum.fin 0, JsNum.fin 1, JsNum.fin (-1), JsNum.fin 1⟩
          (JsNum.fin 0)).angle = JsNum.fin a ∧
      k = JsNum.trunc (r0 / (2 * Real.pi)) ∧
      a = r0 - 2 * Real.pi * (k : ℝ) ∧
      |(k : ℝ)| ≤ |r0 / (2 * Real.pi)| ∧ |r0 / (2 * Real.pi) - (k : ℝ)| < 1 ∧
      |a| < 2 * Real.pi ∧ (0 ≤ r0 → 0 ≤ a) ∧ (r0 ≤ 0 → a ≤ 0) ∧
      (|r0| < 2 * Real.pi → a = r0) :=
  ⟨one_ne_zero, pendulum_angle_truncated_remainder 1 (-1) 0 1 0 one_ne_zero⟩

/-- C17: with the bob drawn at `x = width/2 + length·cos(angle)`,
`y = height/2 + length·sin(angle)`, the angle `π/2` puts the bob at
`(width/2, height/2 + length)`, straight below the pin on a canvas whose `y` axis points
down; and for every non-zero (in particular positive) length, every gravity and every
real `dt`, a pendulum with `angle = π/2` and `angularVelocity = 0` is unchanged by
`update(dt)`. -/
theorem pendulum_hanging_is_fixed (length gravity dt width height : ℝ) (hl : length ≠ 0) :
    DrawingApp.bob (JsMath.mk Real.sin Real.cos Real.pi) (JsNum.fin width)
        (JsNum.fin height)
        ⟨JsNum.fin 0, JsNum.fin length, JsNum.fin (Real.pi / 2), JsNum.fin gravity⟩ =
      (JsNum.fin (width / 2), JsNum.fin (height / 2 + length)) ∧
    Pendulum.update (JsMath.mk Real.sin Real.cos Real.pi)
        ⟨JsNum.fin 0, JsNum.fin length, JsNum.fin (Real.pi / 2), JsNum.fin gravity⟩
        (JsNum.fin dt) =
      ⟨JsNum.fin 0, JsNum.fin length, JsNum.fin (Real.pi / 2), JsNum.fin gravity⟩ := by
  have h2 : (2 : ℝ) ≠ 0 := two_ne_zero
  have hpos : (0 : ℝ) < 2 * Real.pi := by positivity
  have hpi := Real.pi_pos
  constructor
  · simp [DrawingApp.bob, JsMath.sin, JsMath.cos, h2]
  · have hrest : pendulumRate Real.sin Real.pi gravity length ![Real.pi / 2, 0] = 0 := by
      funext i
      fin_cases i <;> simp [pendulumRate]
    have ht : JsNum.trunc (Real.pi / 2 / (2 * Real.pi)) = 0 :=
      JsNum.trunc_eq_zero hpos (by linarith) (by linarith)
    rw [pendulum_update_fin _ length (Real.pi / 2) 0 gravity dt hl Real.pi_ne_zero,
      rk4Spec_fixed _ _ _ hrest]
    simp [ht]

/-- Witness of C17: length 175 and gravity 17500 as in `src/Main.js`, `dt = 1`, on a
canvas of 400 by 300. -/
theorem pendulum_hanging_is_fixed_witness :
    (175 : ℝ) ≠ 0 ∧
    Pendulum.update (JsMath.mk Real.sin Real.cos Real.pi)
        ⟨JsNum.fin 0, JsNum.fin 175, JsNum.fin (Real.pi / 2), JsNum.fin 17500⟩
        (JsNum.fin 1) =
      ⟨JsNum.fin 0, JsNum.fin 175, JsNum.fin (Real.pi / 2), JsNum.fin 17500⟩ :=
  ⟨by norm_num, (pendulum_hanging_is_fixed 175 17500 1 400 300 (by norm_num)).2⟩

/-- C18: for every derivative function `f`, every state `s` and every `dt`, the array
returned by `rk4` has as many components as `s`, whatever the lengths of the arrays `f`
returns; and on array objects, for a pure `f` and a state that is an object of the
store, `rk4` returns a new array object whose contents are `rk4 f s dt`, and leaves the
contents of `s`, and of every array that existed before the call, as they were. -/
theorem rk4_length_and_frame (f : List (JsNum ℝ) → List (JsNum ℝ)) (s : List (JsNum ℝ))
    (dt : JsNum ℝ) (h : Store ℝ) (state : Nat) (hs : state < h.arrays.length) :
    (rk4 f s dt).length = s.length ∧
    ((rk4Store f state dt h).2.read (rk4Store f state dt h).1).length
      = (h.read state).length ∧
    (rk4Store f state dt h).2.read (rk4Store f state dt h).1 = rk4 f (h.read state) dt ∧
    (rk4Store f state dt h).1 ≠ state ∧
    (rk4Store f state dt h).2.read state = h.read state ∧
    ∀ p, p < h.arrays.length → (rk4Store f state dt h).2.read p = h.read p := by
  have hlen : ∀ t : List (JsNum ℝ), (rk4 f t dt).length = t.length := by
    intro t
    simp [rk4]
  obtain ⟨h1, h2, h3⟩ := rk4Store_spec f state dt h hs
  refine ⟨hlen s, ?_, h1, ?_, h2 state hs, h2⟩
  · rw [h1, hlen]
  · omega

/-- Witness of C18: a derivative function that returns the empty array, on the state
`[1, 2]`, the only array of the store. -/
theorem rk4_length_and_frame_witness :
    0 < (Store.mk [[JsNum.fin (1 : ℝ), JsNum.fin 2]]).arrays.length ∧
    (rk4 (fun _ => []) [JsNum.fin (1 : ℝ), JsNum.fin 2] (JsNum.fin 1)).length
      = [JsNum.fin (1 : ℝ), JsNum.fin 2].length ∧
    (rk4Store (fun _ => []) 0 (JsNum.fin 1)
        (Store.mk [[JsNum.fin (1 : ℝ), JsNum.fin 2]])).2.read 0
      = (Store.mk [[JsNum.fin (1 : ℝ), JsNum.fin 2]]).read 0 := by
  have hs : 0 < (Store.mk [[JsNum.fin (1 : ℝ), JsNum.fin 2]]).arrays.length := by simp
  have h := rk4_length_and_frame (fun _ => []) [JsNum.fin (1 : ℝ), JsNum.fin 2]
    (JsNum.fin 1) (Store.mk [[JsNum.fin (1 : ℝ), JsNum.fin 2]]) 0 hs
  exact ⟨hs, h.1, h.2.2.2.2.1⟩
